import Mathlib

/-!
Shallow embedding of `src/generate_calendar.py`, a one-shot ETL script that
normalizes spreadsheet rows into `GameEvent` records, sorts them, renders a
calendar text and writes it idempotently.  Python strings are modelled as Lean
`String` (ASCII fragment of the Python semantics where noted), machine-free
integers as `Int`/`Nat`, timestamps as UTC minutes, fallible code as
`Except`/`Option`, and the output file as an explicit `Option String` state.
-/

/-- Model of the character class of Python `str.strip()` default whitespace
(ASCII fragment). -/
def isPySpace (c : Char) : Bool :=
  c = ' ' || c = '\t' || c = '\n' || c = '\r' || c = '\x0b' || c = '\x0c'

/-- Model of Python `str.strip()`: drop whitespace from both ends. -/
def pyStrip (s : String) : String :=
  ⟨((s.data.dropWhile isPySpace).reverse.dropWhile isPySpace).reverse⟩

/-- Model of Python `str.lower()` (ASCII letters). -/
def pyLower (s : String) : String :=
  ⟨s.data.map (fun c => if 'A' ≤ c && c ≤ 'Z' then Char.ofNat (c.toNat + 32) else c)⟩

/-- Embedding of `_normalize_header`:
`re.sub(r"[^a-z0-9]", "", value.strip().lower())`. -/
def normalize_header (value : String) : String :=
  ⟨(pyLower (pyStrip value)).data.filter
    (fun c => ('a' ≤ c && c ≤ 'z') || ('0' ≤ c && c ≤ '9'))⟩

/-- Digit-run scanner for the model of Python `int(...)`: ASCII digits with
single underscores allowed between digits. -/
def pyIntDigits (acc : Nat) : List Char → Option Nat
  | [] => some acc
  | '_' :: c :: cs =>
    if c.isDigit then pyIntDigits (acc * 10 + (c.toNat - 48)) cs else none
  | ['_'] => none
  | c :: cs => if c.isDigit then pyIntDigits (acc * 10 + (c.toNat - 48)) cs else none

/-- Body of a Python integer literal: must begin with a digit. -/
def pyIntBody : List Char → Option Nat
  | [] => none
  | c :: cs => if c.isDigit then pyIntDigits (c.toNat - 48) cs else none

/-- Model of Python `int(str)` for base 10 (ASCII digits): strip whitespace,
optional sign, digit run.  `none` models the `ValueError`. -/
def pyInt (s : String) : Option Int :=
  match (pyStrip s).data with
  | '+' :: rest => (pyIntBody rest).map (fun n => (n : Int))
  | '-' :: rest => (pyIntBody rest).map (fun n => -(n : Int))
  | l => (pyIntBody l).map (fun n => (n : Int))

/-- Embedding of `_parse_going`: truthy-token test on the stripped, lowered
value; never fails. -/
def parse_going (value : String) : Bool :=
  ["true", "yes", "y", "1", "checked"].contains (pyLower (pyStrip value))

/-- Month lengths of a year, `leap` true in leap years. -/
def monthDays (leap : Bool) : List Nat :=
  [31, if leap then 29 else 28, 31, 30, 31, 30, 31, 31, 30, 31, 30, 31]

/-- Gregorian leap-year test. -/
def isLeapYear (y : Nat) : Bool :=
  (y % 4 = 0 && y % 100 ≠ 0) || y % 400 = 0

/-- Days in month `m` (1-12) of year `y`. -/
def daysInMonth (y m : Nat) : Nat := (monthDays (isLeapYear y)).getD (m - 1) 0

/-- Numeric value of a digit run. -/
def digitsToNat (l : List Char) : Nat := l.foldl (fun a c => a * 10 + (c.toNat - 48)) 0

/-- Split a leading ASCII digit run. -/
def spanDigits (l : List Char) : List Char × List Char := l.span Char.isDigit

/-- Consume one or more whitespace characters (the `\s+` a blank in an
strptime format compiles to); `none` if none present. -/
def skipSpaces1 : List Char → Option (List Char)
  | c :: cs => if isPySpace c then some (cs.dropWhile isPySpace) else none
  | [] => none

/-- Parser for `datetime.strptime(combined, "%m-%d %Y %I:%M %p")`: returns
(month, day, year, hour12, minute, isPM); `none` models the `ValueError`. -/
def parseCombined (l : List Char) : Option (Nat × Nat × Nat × Nat × Nat × Bool) :=
  let (mds, r1) := spanDigits l
  if mds.length = 0 || 2 < mds.length then none else
  let m := digitsToNat mds
  if m < 1 || 12 < m then none else
  match r1 with
  | '-' :: r2 =>
    let (dds, r3) := spanDigits r2
    if dds.length = 0 || 2 < dds.length then none else
    let d := digitsToNat dds
    if d < 1 || 31 < d then none else
    match skipSpaces1 r3 with
    | none => none
    | some r4 =>
      let (yds, r5) := spanDigits r4
      if yds.length ≠ 4 then none else
      let y := digitsToNat yds
      match skipSpaces1 r5 with
      | none => none
      | some r6 =>
        let (hds, r7) := spanDigits r6
        if hds.length = 0 || 2 < hds.length then none else
        let h := digitsToNat hds
        if h < 1 || 12 < h then none else
        match r7 with
        | ':' :: r8 =>
          let (mids, r9) := spanDigits r8
          if mids.length = 0 || 2 < mids.length then none else
          let mi := digitsToNat mids
          if 59 < mi then none else
          match skipSpaces1 r9 with
          | none => none
          | some r10 =>
            match (pyLower ⟨r10⟩).data with
            | ['a', 'm'] => some (m, d, y, h, mi, false)
            | ['p', 'm'] => some (m, d, y, h, mi, true)
            | _ => none
        | _ => none
  | _ => none

/-- Day of year (1-based) of month `m`, day `d` in year `y`. -/
def dayOfYear (y m d : Nat) : Nat := ((monthDays (isLeapYear y)).take (m - 1)).sum + d

/-- Minutes from local midnight January 1 of year `y` to the given local time. -/
def localMinutes (y m d h24 mi : Nat) : Nat := (dayOfYear y m d - 1) * 1440 + h24 * 60 + mi

/-- US DST start 2026 (second Sunday of March, 02:00 local) in local minutes. -/
def dstStart2026 : Nat := localMinutes 2026 3 8 2 0

/-- US DST end 2026 (first Sunday of November, 02:00 local) in local minutes. -/
def dstEnd2026 : Nat := localMinutes 2026 11 1 2 0

/-- America/Los_Angeles to UTC conversion for year-2026 local wall times,
following the `zoneinfo` branch of `_parse_datetime` with the default
`fold=0`: offset -7h inside the DST window, -8h outside.  Nonexistent wall
times in the spring-forward gap (02:00-02:59 on March 8) take the
pre-transition -8h offset, and ambiguous wall times in the fall-back hour
(01:00-01:59 on November 1) take the first occurrence's -7h offset, both
per PEP 495 `fold=0` semantics. -/
def pacificToUtc2026 (localMin : Nat) : Int :=
  if dstStart2026 + 60 ≤ localMin ∧ localMin < dstEnd2026 then (localMin : Int) + 420
  else (localMin : Int) + 480

/-- Embedding of `_parse_datetime` (the `zoneinfo` branch): parse
`f"{date_str.strip()} 2026 {time_str.strip()}"` against `%m-%d %Y %I:%M %p`,
validate the day against the month, interpret in America/Los_Angeles and
convert to UTC minutes.  `none` models the `ValueError` raised by
`strptime`/`datetime`; successful parses always carry year 2026 because the
year text is inserted by the function itself. -/
def parse_datetime (date_str time_str : String) : Option Int :=
  let combined := (pyStrip date_str).data ++ (" 2026 ".data) ++ (pyStrip time_str).data
  match parseCombined combined with
  | none => none
  | some (m, d, y, h12, mi, pm) =>
    if daysInMonth y m < d then none
    else
      let h24 := if pm then (if h12 = 12 then 12 else h12 + 12)
                 else (if h12 = 12 then 0 else h12)
      some (pacificToUtc2026 (localMinutes y m d h24 mi))

/-- Embedding of the frozen `GameEvent` dataclass; timestamps in UTC minutes. -/
structure GameEvent where
  uid : String
  start_utc : Int
  end_utc : Int
  summary : String
  description : Option String
deriving DecidableEq, Repr

/-- Embedding of the `DURATION_HOURS` configuration constant. -/
def DURATION_HOURS : Nat := 4

/-- Directional marker computed inside `_build_summary`: `int(uid)` with
`ValueError` fallback 0, then `"vs" if uid_num < 82 else "@"`. -/
def home_away (uid : String) : String :=
  let uid_num : Int := (pyInt uid).getD 0
  if uid_num < 82 then "vs" else "@"

/-- Embedding of `_build_summary`. -/
def build_summary (uid team : String) (going : Bool) (tix : String) : String :=
  let pfx0 := if going then "PP" else "TV"
  let tixS := pyStrip tix
  let pfx := if tixS ≠ "" then pfx0 ++ " (" ++ tixS ++ ")" else pfx0
  pyStrip (pfx ++ ": " ++ home_away uid ++ " " ++ team)

/-- Model of lookup in a Python `dict[str, int]` built by repeated
assignment: the most recent binding for a key wins. -/
def dictFind? (m : List (String × Nat)) (k : String) : Option Nat :=
  (m.find? (fun p => p.1 == k)).map (fun p => p.2)

/-- One step of `_build_header_map`: `key = _normalize_header(raw)`;
`if key: header_map[key] = idx`.  Assignment conses the new binding, which
together with `dictFind?` gives Python dict overwrite semantics. -/
def header_insert (hm : List (String × Nat)) (p : Nat × String) : List (String × Nat) :=
  let key := normalize_header p.2
  if key = "" then hm else (key, p.1) :: hm

/-- Embedding of `_build_header_map`. -/
def build_header_map (header_row : List String) : List (String × Nat) :=
  header_row.enum.foldl header_insert []

/-- Embedding of `_get_cell`: out-of-range indices give `""`. -/
def get_cell (row : List String) (idx : Nat) : String :=
  if row.length ≤ idx then "" else row.getD idx ""

/-- Embedding of the `OPTIONAL_COLUMNS` configuration table. -/
def OPTIONAL_COLUMNS : List (String × String) := [("giveaway", "Giveaway"), ("tix", "#Tix")]

/-- Embedding of the `REQUIRED_COLUMNS` configuration table (insertion
order matters for the required-column check). -/
def REQUIRED_COLUMNS : List (String × String) :=
  [("id", "ID"), ("date", "Date"), ("time", "Time"), ("team", "team"), ("going", "Going?")]

/-- Embedding of `_get_optional_cell`: try the programmatic key, then the
display label, each normalized; absent columns give `""`. -/
def get_optional_cell (row : List String) (hm : List (String × Nat)) (key : String) : String :=
  let candidates := [key] ++ (match OPTIONAL_COLUMNS.lookup key with
    | some disp => [disp]
    | none => [])
  match candidates.findSome? (fun cand =>
      (dictFind? hm (normalize_header cand)).map (fun idx => pyStrip (get_cell row idx))) with
  | some v => v
  | none => ""

/-- Validation and event construction of the row loop of `_iter_events`
(lines after the cell reads): the date/time/team emptiness check, datetime
parsing, and the `GameEvent` construction with the fixed four-hour
duration. -/
def validate_and_build (uid date_str time_str team going_raw giveaway tix : String) :
    Except String (Option GameEvent) :=
  if date_str = "" ∨ time_str = "" ∨ team = "" then
    .error ("Row for UID " ++ uid ++ " missing required fields")
  else
    match parse_datetime date_str time_str with
    | none => .error "ValueError: time data does not match format"
    | some start_utc =>
      .ok (some { uid := uid, start_utc := start_utc,
                  end_utc := start_utc + 60 * (DURATION_HOURS : Int),
                  summary := build_summary uid team (parse_going going_raw) tix,
                  description := if giveaway ≠ "" then some ("Giveaway: " ++ giveaway)
                    else none })

/-- Required-column cell reads of the row loop, in source order; a missing
key models the Python `KeyError`. -/
def process_row_with_uid (hm : List (String × Nat)) (row : List String) (uid : String) :
    Except String (Option GameEvent) :=
  match dictFind? hm "date" with
  | none => .error "KeyError: date"
  | some date_idx =>
    match dictFind? hm "time" with
    | none => .error "KeyError: time"
    | some time_idx =>
      match dictFind? hm "team" with
      | none => .error "KeyError: team"
      | some team_idx =>
        match dictFind? hm "going" with
        | none => .error "KeyError: going"
        | some going_idx =>
          validate_and_build uid
            (pyStrip (get_cell row date_idx)) (pyStrip (get_cell row time_idx))
            (pyStrip (get_cell row team_idx)) (pyStrip (get_cell row going_idx))
            (get_optional_cell row hm "giveaway") (get_optional_cell row hm "tix")

/-- Body of the row loop of `_iter_events` for one data row, in source
order: uid read, silent skip on empty uid (`ok none` models `continue`),
then the remaining reads, validation and construction.  `error` models an
uncaught Python exception. -/
def process_row (hm : List (String × Nat)) (row : List String) :
    Except String (Option GameEvent) :=
  match dictFind? hm "id" with
  | none => .error "KeyError: id"
  | some id_idx =>
    if pyStrip (get_cell row id_idx) = "" then .ok none
    else process_row_with_uid hm row (pyStrip (get_cell row id_idx))

/-- Full consumption of the `_iter_events` generator over the data rows:
the first raised exception aborts, yielded events are collected in row
order. -/
def collect_events (hm : List (String × Nat)) :
    List (List String) → Except String (List GameEvent)
  | [] => .ok []
  | row :: rest =>
    match process_row hm row with
    | .error e => .error e
    | .ok none => collect_events hm rest
    | .ok (some ev) =>
      match collect_events hm rest with
      | .error e => .error e
      | .ok evs => .ok (ev :: evs)

/-- Embedding of `_iter_events` (fully consumed): header-map construction
from row 0, required-column check in `REQUIRED_COLUMNS` order, then the row
loop over the remaining rows. -/
def iter_events (values : List (List String)) : Except String (List GameEvent) :=
  match values with
  | [] => .error "IndexError: list index out of range"
  | header :: rows =>
    let hm := build_header_map header
    match REQUIRED_COLUMNS.find? (fun p => (dictFind? hm p.1).isNone) with
    | some p => .error ("Missing required column \x27" ++ p.2 ++ "\x27 in sheet header")
    | none => collect_events hm rows

/-- Embedding of `_sort_key` from `main`: `(int(uid), uid)` with
`ValueError` fallback `(0, uid)`. -/
def sort_key (event : GameEvent) : Int × String :=
  match pyInt event.uid with
  | some n => (n, event.uid)
  | none => (0, event.uid)

/-- Python string `<`: lexicographic comparison of code points. -/
def charListLt : List Char → List Char → Bool
  | _, [] => false
  | [], _ :: _ => true
  | a :: as, b :: bs => decide (a < b) || (decide (a = b) && charListLt as bs)

/-- Python string `<` on `String`. -/
def pyStrLt (s t : String) : Bool := charListLt s.data t.data

/-- Python string `<=` (total order, so `s <= t` is `not (t < s)`). -/
def pyStrLe (s t : String) : Bool := !(pyStrLt t s)

/-- Python tuple `<=` on the `(int, str)` sort keys of two events: the
comparison `sorted(..., key=_sort_key)` orders by. -/
def key_le (a b : GameEvent) : Bool :=
  decide ((sort_key a).1 < (sort_key b).1) ||
    (decide ((sort_key a).1 = (sort_key b).1) && pyStrLe (sort_key a).2 (sort_key b).2)

/-- The sort-key order as a relation. -/
def eventLE (a b : GameEvent) : Prop := key_le a b = true

instance instDecEventLE : DecidableRel eventLE :=
  fun a b => inferInstanceAs (Decidable (key_le a b = true))

/-- Model of `sorted(_iter_events(values), key=_sort_key)` in `main`:
Python `sorted` is a stable sort by the key order, and a stable sort is
extensionally unique, so stable insertion sort has the same result. -/
def sortEvents (evs : List GameEvent) : List GameEvent := List.insertionSort eventLE evs

/-- State of the output file at the configured path: `none` when absent. -/
abbrev FileState := Option String

/-- Universal-newline translation performed by a Python text-mode read
with the default `newline=None`: `\r\n` and lone `\r` both become `\n`. -/
def univNewlines : List Char → List Char
  | [] => []
  | '\r' :: '\n' :: rest => '\n' :: univNewlines rest
  | '\r' :: rest => '\n' :: univNewlines rest
  | c :: rest => c :: univNewlines rest

/-- Embedding of `_load_existing`: absence counts as empty content, and
the `open(path, "r", encoding="utf-8")` read uses the default
`newline=None`, so the stored bytes come back with universal-newline
translation applied. -/
def load_existing : FileState → String
  | none => ""
  | some content => ⟨univNewlines content.data⟩

/-- Embedding of `_write_if_changed`: returns the new file state and the
`changed` flag (`false` means the write was skipped and the call reported
unchanged).  The read side goes through `load_existing` (universal-newline
translation), while the write uses `newline=""` and therefore stores the
content bytes exactly. -/
def write_if_changed (st : FileState) (content : String) : FileState × Bool :=
  if load_existing st = content then (st, false) else (some content, true)

/-- Single-character Python `str.replace` on the character list. -/
def replaceChar (c : Char) (r : List Char) : List Char → List Char
  | [] => []
  | x :: xs => (if x = c then r else [x]) ++ replaceChar c r xs

/-- Embedding of `_ics_escape`: the four chained `str.replace` calls, in
source order (backslash, then semicolon, then comma, then newline). -/
def ics_escape (s : String) : String :=
  ⟨replaceChar '\n' ['\\', 'n']
    (replaceChar ',' ['\\', ',']
      (replaceChar ';' ['\\', ';']
        (replaceChar '\\' ['\\', '\\'] s.data)))⟩

/-- Specification-side single-pass escaper: each character of the input is
escaped independently, so no character introduced by an earlier escape is
ever re-escaped. -/
def escCharSpec (x : Char) : List Char :=
  if x = '\\' then ['\\', '\\']
  else if x = ';' then ['\\', ';']
  else if x = ',' then ['\\', ',']
  else if x = '\n' then ['\\', 'n']
  else [x]

/-- Specification-side escaping of a whole string in one pass. -/
def ics_escape_spec (s : String) : String :=
  ⟨s.data.foldr (fun x acc => escCharSpec x ++ acc) []⟩

/-- Specification-side description of `_build_header_map`: the index of the
last header cell whose normalization is `k`. -/
def lastKeyIdx? (header : List String) (k : String) : Option Nat :=
  (header.enum.reverse.find? (fun p => normalize_header p.2 == k)).map (fun p => p.1)

/-- Concrete sheet with identifiers "10", "2", "abc", "1" (sort example). -/
def c1_values : List (List String) :=
  [["ID", "Date", "Time", "team", "Going?"],
   ["10", "04-01", "01:05 PM", "Giants", "yes"],
   ["2", "03-20", "06:40 PM", "Cubs", ""],
   ["abc", "05-09", "05:10 PM", "Mets", "no"],
   ["1", "03-14", "07:10 PM", "Dodgers", "yes"]]

/-- Concrete sheet with a single non-numeric identifier. -/
def c2_values : List (List String) :=
  [["ID", "Date", "Time", "team", "Going?"],
   ["abc", "03-14", "07:10 PM", "Dodgers", ""]]

/-- Concrete sheet matching the end-to-end example of the spec. -/
def c9_values : List (List String) :=
  [["ID", "Date", "Time", "team", "Going?", "Giveaway", "#Tix"],
   ["5", "03-14", "07:10 PM", "Dodgers", "yes", "Bobblehead", "2"]]

/-! ### Helper lemmas -/

theorem replaceChar_append (c : Char) (r : List Char) (l₁ l₂ : List Char) :
    replaceChar c r (l₁ ++ l₂) = replaceChar c r l₁ ++ replaceChar c r l₂ := by
  induction l₁ with
  | nil => rfl
  | cons x xs ih => simp [replaceChar, ih, List.append_assoc]

theorem ics_escape_list_eq (l : List Char) :
    replaceChar '\n' ['\\', 'n']
      (replaceChar ',' ['\\', ',']
        (replaceChar ';' ['\\', ';']
          (replaceChar '\\' ['\\', '\\'] l)))
      = l.foldr (fun x acc => escCharSpec x ++ acc) [] := by
  induction l with
  | nil => rfl
  | cons x xs ih =>
    rw [show replaceChar '\\' ['\\', '\\'] (x :: xs)
        = (if x = '\\' then ['\\', '\\'] else [x]) ++ replaceChar '\\' ['\\', '\\'] xs from rfl]
    rw [replaceChar_append, replaceChar_append, replaceChar_append, ih, List.foldr_cons]
    congr 1
    by_cases h1 : x = '\\'
    · subst h1; rfl
    · by_cases h2 : x = ';'
      · subst h2; rfl
      · by_cases h3 : x = ','
        · subst h3; rfl
        · by_cases h4 : x = '\n'
          · subst h4; rfl
          · simp [replaceChar, escCharSpec, h1, h2, h3, h4]

/-! ### Claim theorems -/

/-- C7: `_ics_escape` replaces backslash first, then semicolon, comma and
newline, and this chained order equals a single independent pass over the
input, so no character introduced by a later replacement is re-escaped; in
particular the string `A;B,C` newline `D` renders with each of the three
delimiters escaped by a single backslash. -/
theorem c7_escape_order :
    (∀ s : String, ics_escape s = ics_escape_spec s) ∧
    ics_escape "A;B,C\nD" = "A\\;B\\,C\\nD" := by
  constructor
  · intro s
    exact congrArg String.mk (ics_escape_list_eq s.data)
  · rfl

/-- C8: `_get_cell` at an index at or beyond the row length returns the
empty string; no out-of-range fault is possible. -/
theorem c8_get_cell_total (row : List String) (idx : Nat) (h : row.length ≤ idx) :
    get_cell row idx = "" := by
  simp [get_cell, h]

/-- Witness for C8 at the concrete row `["a"]` and index 3. -/
theorem c8_witness : ["a"].length ≤ 3 ∧ get_cell ["a"] 3 = "" :=
  ⟨by decide, c8_get_cell_total ["a"] 3 (by decide)⟩

/-- C6: header normalization lowercases and strips every non-alphanumeric
character, so `"Going?"`, `"GOING"` and `"going "` normalize to the same
key and resolve to the same column in any header map; moreover every
character surviving normalization is a lowercase ASCII letter or digit. -/
theorem c6_header_normalization :
    normalize_header "Going?" = "going" ∧ normalize_header "GOING" = "going" ∧
    normalize_header "going " = "going" ∧
    (∀ header : List String,
      dictFind? (build_header_map header) (normalize_header "Going?") =
        dictFind? (build_header_map header) (normalize_header "GOING") ∧
      dictFind? (build_header_map header) (normalize_header "Going?") =
        dictFind? (build_header_map header) (normalize_header "going ")) ∧
    (∀ s : String, ∀ c ∈ (normalize_header s).data,
      (('a' ≤ c && c ≤ 'z') || ('0' ≤ c && c ≤ '9')) = true) := by
  refine ⟨by decide, by decide, by decide, fun header => ?_, fun s c hc => ?_⟩
  · rw [show normalize_header "Going?" = "going" from by decide,
        show normalize_header "GOING" = "going" from by decide,
        show normalize_header "going " = "going" from by decide]
    exact ⟨rfl, rfl⟩
  · have hc' : c ∈ (pyLower (pyStrip s)).data.filter
        (fun c => ('a' ≤ c && c ≤ 'z') || ('0' ≤ c && c ≤ '9')) := hc
    exact (List.mem_filter.mp hc').2

/-- C3 (code bug): for CRLF content the writer is not idempotent.  The
write stores the content bytes exactly (`newline=""`), but the read back
applies universal-newline translation (`newline=None`), so a second call
with the same CRLF content compares the stored CRLF bytes against their
LF-translated read and finds them unequal: it performs a second disk write
and reports changed (`true`), where the claim says it skips the write and
reports unchanged.  The theorem evaluates the writer at a file absent
initially and the CRLF content `"BEGIN:VCALENDAR\r\nEND:VCALENDAR\r\n"`:
the first call writes, the read-back of what it persisted is the
LF-translated string, and the second call writes again and reports
changed. -/
theorem c3_writer_crlf_rewrites :
    write_if_changed (none : FileState) "BEGIN:VCALENDAR\r\nEND:VCALENDAR\r\n"
      = (some "BEGIN:VCALENDAR\r\nEND:VCALENDAR\r\n", true) ∧
    load_existing (some "BEGIN:VCALENDAR\r\nEND:VCALENDAR\r\n")
      = "BEGIN:VCALENDAR\nEND:VCALENDAR\n" ∧
    write_if_changed
        (write_if_changed (none : FileState) "BEGIN:VCALENDAR\r\nEND:VCALENDAR\r\n").1
        "BEGIN:VCALENDAR\r\nEND:VCALENDAR\r\n"
      = (some "BEGIN:VCALENDAR\r\nEND:VCALENDAR\r\n", true) ∧
    load_existing (none : FileState) = "" := by
  refine ⟨by rfl, by rfl, by rfl, rfl⟩

/-- C5: a data row whose identifier cell is empty after trimming is skipped
silently: the row loop yields no event and raises no error, regardless of
every other cell, and the row contributes nothing to the collected batch. -/
theorem c5_empty_uid_skipped (hm : List (String × Nat)) (row : List String) (id_idx : Nat)
    (hid : dictFind? hm "id" = some id_idx)
    (huid : pyStrip (get_cell row id_idx) = "") :
    process_row hm row = .ok none ∧
    ∀ rest, collect_events hm (row :: rest) = collect_events hm rest := by
  have h1 : process_row hm row = .ok none := by
    simp only [process_row, hid, huid, if_pos]
  exact ⟨h1, fun rest => by simp only [collect_events, h1]⟩

/-- Witness for C5: a row with an empty identifier but every other cell
populated yields no event and no error. -/
theorem c5_witness :
    process_row (build_header_map ["ID", "Date", "Time", "team", "Going?"])
      ["", "03-14", "07:10 PM", "Padres", "yes"] = .ok none :=
  (c5_empty_uid_skipped (build_header_map ["ID", "Date", "Time", "team", "Going?"])
    ["", "03-14", "07:10 PM", "Padres", "yes"] 0 (by decide) (by decide)).1

theorem collect_events_error_of_mem (hm : List (String × Nat)) (row : List String)
    (rows : List (List String)) (m : String)
    (hrow : process_row hm row = .error m) (hmem : row ∈ rows) :
    ∃ e, collect_events hm rows = .error e := by
  induction rows with
  | nil => cases hmem
  | cons r rest ih =>
    rcases List.mem_cons.mp hmem with rfl | hmem'
    · exact ⟨m, by simp only [collect_events, hrow]⟩
    · cases hpr : process_row hm r with
      | error e => exact ⟨e, by simp only [collect_events, hpr]⟩
      | ok ev? =>
        obtain ⟨e, he⟩ := ih hmem'
        cases ev? with
        | none => exact ⟨e, by simp only [collect_events, hpr, he]⟩
        | some ev => exact ⟨e, by simp only [collect_events, hpr, he]⟩

/-- C4: a data row whose identifier is non-empty after trimming but whose
date, time or team cell is empty after trimming makes the row loop fail
with an error whose message contains that identifier, and any batch
containing such a row produces an error instead of a calendar. -/
theorem c4_missing_required_field (hm : List (String × Nat)) (row : List String)
    (id_idx date_idx time_idx team_idx going_idx : Nat)
    (hid : dictFind? hm "id" = some id_idx)
    (hdate : dictFind? hm "date" = some date_idx)
    (htime : dictFind? hm "time" = some time_idx)
    (hteam : dictFind? hm "team" = some team_idx)
    (hgoing : dictFind? hm "going" = some going_idx)
    (huid : pyStrip (get_cell row id_idx) ≠ "")
    (hmiss : pyStrip (get_cell row date_idx) = "" ∨ pyStrip (get_cell row time_idx) = ""
      ∨ pyStrip (get_cell row team_idx) = "") :
    process_row hm row
      = .error ("Row for UID " ++ pyStrip (get_cell row id_idx) ++ " missing required fields") ∧
    ∀ header rows, build_header_map header = hm → row ∈ rows →
      ∃ e, iter_events (header :: rows) = .error e := by
  have h1 : process_row hm row
      = .error ("Row for UID " ++ pyStrip (get_cell row id_idx) ++ " missing required fields") := by
    simp only [process_row, process_row_with_uid, validate_and_build,
      hid, hdate, htime, hteam, hgoing, if_neg huid, if_pos hmiss]
  refine ⟨h1, fun header rows hh hmem => ?_⟩
  simp only [iter_events, hh]
  cases hfind : REQUIRED_COLUMNS.find? (fun p => (dictFind? hm p.1).isNone) with
  | some p => exact ⟨_, rfl⟩
  | none => exact collect_events_error_of_mem hm row rows _ h1 hmem

/-- Witness for C4: the row with identifier `"7"` and an empty date cell
fails with an error mentioning `"7"`, and the whole batch errors. -/
theorem c4_witness :
    process_row (build_header_map ["ID", "Date", "Time", "team", "Going?"])
        ["7", "", "07:10 PM", "Padres", ""]
      = .error "Row for UID 7 missing required fields" ∧
    ∃ e, iter_events [["ID", "Date", "Time", "team", "Going?"],
        ["7", "", "07:10 PM", "Padres", ""]] = .error e := by
  have h := c4_missing_required_field
    (build_header_map ["ID", "Date", "Time", "team", "Going?"])
    ["7", "", "07:10 PM", "Padres", ""] 0 1 2 3 4
    (by decide) (by decide) (by decide) (by decide) (by decide)
    (by decide) (Or.inl (by decide))
  exact ⟨h.1.trans (by rfl),
    h.2 ["ID", "Date", "Time", "team", "Going?"] [["7", "", "07:10 PM", "Padres", ""]]
      rfl (by simp)⟩

theorem validate_and_build_duration (uid date_str time_str team going_raw giveaway tix : String)
    (ev : GameEvent)
    (h : validate_and_build uid date_str time_str team going_raw giveaway tix = .ok (some ev)) :
    ev.end_utc = ev.start_utc + 240 := by
  unfold validate_and_build at h
  split at h
  · exact Except.noConfusion h
  · split at h
    · exact Except.noConfusion h
    · injection h with h
      injection h with h
      subst h
      rfl

theorem process_row_duration (hm : List (String × Nat)) (row : List String) (ev : GameEvent)
    (h : process_row hm row = .ok (some ev)) : ev.end_utc = ev.start_utc + 240 := by
  unfold process_row at h
  split at h
  · exact Except.noConfusion h
  · split at h
    · injection h with h; exact Option.noConfusion h
    · unfold process_row_with_uid at h
      repeat' split at h
      any_goals exact Except.noConfusion h
      exact validate_and_build_duration _ _ _ _ _ _ _ _ h

theorem collect_events_cons (hm : List (String × Nat)) (r : List String)
    (rest : List (List String)) :
    collect_events hm (r :: rest)
      = match process_row hm r with
        | .error e => .error e
        | .ok none => collect_events hm rest
        | .ok (some ev) =>
          match collect_events hm rest with
          | .error e => .error e
          | .ok evs => .ok (ev :: evs) := rfl

theorem collect_events_duration (hm : List (String × Nat)) :
    ∀ (rows : List (List String)) (evs : List GameEvent),
      collect_events hm rows = .ok evs → ∀ ev ∈ evs, ev.end_utc = ev.start_utc + 240 := by
  intro rows
  induction rows with
  | nil =>
    intro evs h ev hev
    injection h with h
    subst h
    cases hev
  | cons r rest ih =>
    intro evs h ev hev
    rw [collect_events_cons] at h
    cases hpr : process_row hm r with
    | error e => rw [hpr] at h; exact Except.noConfusion h
    | ok ev? =>
      rw [hpr] at h
      cases ev? with
      | none => exact ih evs h ev hev
      | some ev' =>
        cases hcr : collect_events hm rest with
        | error e => rw [hcr] at h; exact Except.noConfusion h
        | ok evs' =>
          rw [hcr] at h
          injection h with h
          subst h
          rcases List.mem_cons.mp hev with rfl | hev'
          · exact process_row_duration hm r ev hpr
          · exact ih evs' hcr ev hev'

theorem iter_events_cons (header : List String) (rows : List (List String)) :
    iter_events (header :: rows)
      = match REQUIRED_COLUMNS.find?
          (fun p => (dictFind? (build_header_map header) p.1).isNone) with
        | some p => .error ("Missing required column \x27" ++ p.2 ++ "\x27 in sheet header")
        | none => collect_events (build_header_map header) rows := rfl

/-- C9: every event produced by normalization has an end four hours (240
UTC minutes) after its start, hence a start strictly before its end. -/
theorem c9_event_duration (values : List (List String)) (evs : List GameEvent)
    (h : iter_events values = .ok evs) :
    ∀ ev ∈ evs, ev.end_utc = ev.start_utc + 240 ∧ ev.start_utc < ev.end_utc := by
  intro ev hev
  cases values with
  | nil => exact Except.noConfusion h
  | cons header rows =>
    rw [iter_events_cons] at h
    split at h
    · exact Except.noConfusion h
    · have hd := collect_events_duration (build_header_map header) rows evs h ev hev
      exact ⟨hd, by omega⟩

/-- Witness for C9: the end-to-end example sheet yields one event whose
timestamps are four hours apart. -/
theorem c9_witness :
    iter_events c9_values = .ok [{ uid := "5"
                                   start_utc := 105250
                                   end_utc := 105490
                                   summary := "PP (2): vs Dodgers"
                                   description := some "Giveaway: Bobblehead" }] ∧
    (105490 : Int) = 105250 + 240 ∧ (105250 : Int) < 105490 := by
  have h : iter_events c9_values = .ok [{ uid := "5"
                                          start_utc := 105250
                                          end_utc := 105490
                                          summary := "PP (2): vs Dodgers"
                                          description := some "Giveaway: Bobblehead" }] := by rfl
  exact ⟨h, c9_event_duration c9_values _ h _ (List.mem_singleton.mpr rfl)⟩

/-- C2 (amended): the directional marker is `"vs"` exactly when the
identifier is non-parseable as an integer or parses to an integer below
82, and `"@"` exactly when it parses to an integer at least 82: the code
falls back to integer key 0 for non-parseable identifiers before the
threshold comparison, so non-parseable identifiers get `"vs"`. -/
theorem c2_marker_amended (uid : String) :
    (home_away uid = "vs" ↔ (pyInt uid = none ∨ ∃ n, pyInt uid = some n ∧ n < 82)) ∧
    (home_away uid = "@" ↔ ∃ n, pyInt uid = some n ∧ 82 ≤ n) := by
  unfold home_away
  cases h : pyInt uid with
  | none =>
    simp only [h, Option.getD_none]
    rw [if_pos (show (0 : Int) < 82 by norm_num)]
    refine ⟨by simp, ?_, ?_⟩
    · intro hc; exact absurd hc (by decide)
    · rintro ⟨m, hm, _⟩; exact Option.noConfusion hm
  | some n =>
    simp only [h, Option.getD_some, Option.some.injEq]
    by_cases hn : n < 82
    · rw [if_pos hn]
      constructor
      · simp only [true_iff]
        exact Or.inr ⟨n, rfl, hn⟩
      · constructor
        · intro hc; exact absurd hc (by decide)
        · rintro ⟨m, rfl, hm⟩; omega
    · rw [if_neg hn]
      constructor
      · constructor
        · intro hc; exact absurd hc (by decide)
        · rintro (hc | ⟨m, rfl, hm⟩)
          · exact Option.noConfusion hc  
          · omega
      · simp only [true_iff]
        exact ⟨n, rfl, by omega⟩

/-- Counterexample for C2 as frozen: the identifier `"abc"` is not
parseable as an integer, yet the normalized row gets marker `"vs"` in its
summary, not `"@"`. -/
theorem c2_counterexample :
    pyInt "abc" = none ∧ home_away "abc" = "vs" ∧ home_away "abc" ≠ "@" ∧
    iter_events c2_values = .ok [{ uid := "abc"
                                   start_utc := 105250
                                   end_utc := 105490
                                   summary := "TV: vs Dodgers"
                                   description := none }] := by
  exact ⟨by decide, by decide, by decide, by rfl⟩

theorem find_pred_congr {α : Type} (l : List α) (p q : α → Bool) (h : ∀ a, p a = q a) :
    l.find? p = l.find? q := by
  induction l with
  | nil => rfl
  | cons a t ih => rw [List.find?_cons, List.find?_cons, h a, ih]

theorem dictFind_header_insert_fold (k : String) :
    ∀ (l : List (Nat × String)) (m : List (String × Nat)),
      dictFind? (l.foldl header_insert m) k =
        match l.reverse.find? (fun p => normalize_header p.2 == k && !(k == "")) with
        | some p => some p.1
        | none => dictFind? m k := by
  intro l
  induction l with
  | nil => intro m; rfl
  | cons a t ih =>
    intro m
    rw [List.foldl_cons, ih, List.reverse_cons, List.find?_append]
    cases hf : t.reverse.find? (fun p => normalize_header p.2 == k && !(k == "")) with
    | some p => rfl
    | none =>
      simp only [Option.none_or]
      rw [List.find?_singleton]
      by_cases hk : normalize_header a.2 = k
      · by_cases hk0 : k = ""
        · subst hk0
          rw [if_neg (by simp)]
          simp [header_insert, hk]
        · rw [if_pos (by simp [hk, hk0])]
          have hins : header_insert m a = (k, a.1) :: m := by
            simp [header_insert, hk, hk0]
          rw [hins]
          simp only [dictFind?]
          rw [List.find?_cons_of_pos _ (by simp)]
          rfl
      · rw [if_neg (by simp [hk])]
        by_cases hk2 : normalize_header a.2 = ""
        · simp [header_insert, hk2]
        · have hins : header_insert m a = (normalize_header a.2, a.1) :: m := by
            simp [header_insert, hk2]
          rw [hins]
          simp only [dictFind?]
          rw [List.find?_cons_of_neg _ (by simp [hk])]

/-- C10: in `_build_header_map`, a later column whose header normalizes to
the same non-empty key overwrites an earlier one (lookup returns the last
such column index), and header cells normalizing to the empty string are
never inserted, so the empty key has no entry. -/
theorem c10_header_map (header : List String) (k : String) :
    (k ≠ "" → dictFind? (build_header_map header) k = lastKeyIdx? header k) ∧
    dictFind? (build_header_map header) "" = none := by
  constructor
  · intro hk
    rw [build_header_map, dictFind_header_insert_fold, lastKeyIdx?]
    rw [find_pred_congr header.enum.reverse _ (fun p => normalize_header p.2 == k)
      (fun p => by simp [hk])]
    cases header.enum.reverse.find? (fun p => normalize_header p.2 == k) with
    | some p => rfl
    | none => rfl
  · rw [build_header_map, dictFind_header_insert_fold]
    rw [find_pred_congr header.enum.reverse _ (fun p => false) (fun p => by simp)]
    rw [List.find?_eq_none.mpr (fun x _ => by simp)]
    rfl

/-- Witness for C10: with duplicate headers `"Going?"` and `"going "` the
key `"going"` resolves to the later column 1, and the empty key is absent. -/
theorem c10_witness :
    dictFind? (build_header_map ["Going?", "going ", "Date"]) "going"
      = lastKeyIdx? ["Going?", "going ", "Date"] "going" ∧
    lastKeyIdx? ["Going?", "going ", "Date"] "going" = some 1 ∧
    dictFind? (build_header_map ["Going?", "going ", "Date"]) "" = none :=
  ⟨(c10_header_map ["Going?", "going ", "Date"] "going").1 (by decide),
   by decide,
   (c10_header_map ["Going?", "going ", "Date"] "").2⟩

theorem charListLt_irrefl : ∀ as, charListLt as as = false := by
  intro as
  induction as with
  | nil => rfl
  | cons a t ih => simp [charListLt, ih]

theorem charListLt_asymm : ∀ as bs, charListLt as bs = true → charListLt bs as = true → False := by
  intro as
  induction as with
  | nil =>
    intro bs h1 h2
    cases bs with
    | nil => simp [charListLt] at h1
    | cons b t => simp [charListLt] at h2
  | cons a t ih =>
    intro bs h1 h2
    cases bs with
    | nil => simp [charListLt] at h1
    | cons b u =>
      simp only [charListLt, Bool.or_eq_true, Bool.and_eq_true, decide_eq_true_eq] at h1 h2
      rcases h1 with h1 | ⟨rfl, h1⟩
      · rcases h2 with h2 | ⟨rfl, h2⟩
        · exact absurd h2 (lt_asymm h1)
        · exact lt_irrefl _ h1
      · rcases h2 with h2 | ⟨_, h2⟩
        · exact lt_irrefl _ h2
        · exact ih u h1 h2

theorem charListLt_trans :
    ∀ as bs cs, charListLt as bs = true → charListLt bs cs = true → charListLt as cs = true := by
  intro as
  induction as with
  | nil =>
    intro bs cs h1 h2
    cases bs with
    | nil => simp [charListLt] at h1
    | cons b u =>
      cases cs with
      | nil => simp [charListLt] at h2
      | cons c v => rfl
  | cons a t ih =>
    intro bs cs h1 h2
    cases bs with
    | nil => simp [charListLt] at h1
    | cons b u =>
      cases cs with
      | nil => simp [charListLt] at h2
      | cons c v =>
        simp only [charListLt, Bool.or_eq_true, Bool.and_eq_true, decide_eq_true_eq] at h1 h2 ⊢
        rcases h1 with h1 | ⟨rfl, h1⟩
        · rcases h2 with h2 | ⟨rfl, h2⟩
          · exact Or.inl (lt_trans h1 h2)
          · exact Or.inl h1
        · rcases h2 with h2 | ⟨rfl, h2⟩
          · exact Or.inl h2
          · exact Or.inr ⟨rfl, ih u v h1 h2⟩

theorem charListLt_connex :
    ∀ as bs, charListLt as bs = true ∨ as = bs ∨ charListLt bs as = true := by
  intro as
  induction as with
  | nil =>
    intro bs
    cases bs with
    | nil => exact Or.inr (Or.inl rfl)
    | cons b u => exact Or.inl rfl
  | cons a t ih =>
    intro bs
    cases bs with
    | nil => exact Or.inr (Or.inr rfl)
    | cons b u =>
      rcases lt_trichotomy a b with hab | rfl | hab
      · exact Or.inl (by simp [charListLt, hab])
      · rcases ih u with h | rfl | h
        · exact Or.inl (by simp [charListLt, h])
        · exact Or.inr (Or.inl rfl)
        · exact Or.inr (Or.inr (by simp [charListLt, h]))
      · exact Or.inr (Or.inr (by simp [charListLt, hab]))

theorem pyStrLe_total (s t : String) : pyStrLe s t = true ∨ pyStrLe t s = true := by
  unfold pyStrLe pyStrLt
  by_cases h : charListLt t.data s.data = true
  · right
    simp only [Bool.not_eq_true']
    cases hc : charListLt s.data t.data with
    | false => rfl
    | true => exact absurd (charListLt_asymm _ _ hc h) (fun f => f)
  · left
    simp only [Bool.not_eq_true']
    exact Bool.eq_false_iff.mpr h

theorem pyStrLe_trans (s t u : String) (h1 : pyStrLe s t = true) (h2 : pyStrLe t u = true) :
    pyStrLe s u = true := by
  unfold pyStrLe pyStrLt at h1 h2 ⊢
  simp only [Bool.not_eq_true'] at h1 h2 ⊢
  cases hc : charListLt u.data s.data with
  | false => rfl
  | true =>
    exfalso
    rcases charListLt_connex t.data u.data with h | h | h
    · have := charListLt_trans _ _ _ h hc
      rw [this] at h1; exact Bool.noConfusion h1
    · rw [← h] at hc
      rw [hc] at h1; exact Bool.noConfusion h1
    · rw [h] at h2; exact Bool.noConfusion h2

theorem eventLE_total (a b : GameEvent) : eventLE a b ∨ eventLE b a := by
  unfold eventLE key_le
  rcases lt_trichotomy (sort_key a).1 (sort_key b).1 with h | h | h
  · left; simp [h]
  · rcases pyStrLe_total (sort_key a).2 (sort_key b).2 with hs | hs
    · left; simp [h, hs]
    · right; simp [h.symm, hs]
  · right; simp [h]

theorem eventLE_trans (a b c : GameEvent) (hab : eventLE a b) (hbc : eventLE b c) :
    eventLE a c := by
  unfold eventLE key_le at hab hbc ⊢
  simp only [Bool.or_eq_true, Bool.and_eq_true, decide_eq_true_eq] at hab hbc ⊢
  rcases hab with h1 | ⟨h1, h1s⟩
  · rcases hbc with h2 | ⟨h2, h2s⟩
    · exact Or.inl (lt_trans h1 h2)
    · exact Or.inl (h2 ▸ h1)
  · rcases hbc with h2 | ⟨h2, h2s⟩
    · exact Or.inl (h1 ▸ h2)
    · exact Or.inr ⟨h1.trans h2, pyStrLe_trans _ _ _ h1s h2s⟩

/-- C1 (amended): the collected events are sorted by primary key
`int(uid)` with fallback 0 for non-parseable identifiers and secondary key
the original identifier string; the result is a permutation of the input
ordered by that key, and for the identifiers `"10"`, `"2"`, `"abc"`, `"1"`
the output order is `abc, 1, 2, 10`, because the non-parseable identifier
takes key 0 and therefore sorts before the positive numeric keys. -/
theorem c1_sort_amended :
    (∀ evs : List GameEvent,
      (sortEvents evs).Perm evs ∧ (sortEvents evs).Sorted eventLE) ∧
    (iter_events c1_values).map (fun evs => (sortEvents evs).map GameEvent.uid)
      = .ok ["abc", "1", "2", "10"] := by
  constructor
  · intro evs
    haveI : IsTotal GameEvent eventLE := ⟨eventLE_total⟩
    haveI : IsTrans GameEvent eventLE := ⟨eventLE_trans⟩
    exact ⟨List.perm_insertionSort eventLE evs, List.sorted_insertionSort eventLE evs⟩
  · rfl

/-- Counterexample for C1 as frozen: for the identifiers `"10"`, `"2"`,
`"abc"`, `"1"` the sorted output order is `abc, 1, 2, 10`, not the claimed
`1, 2, 10, abc`. -/
theorem c1_counterexample :
    (iter_events c1_values).map (fun evs => (sortEvents evs).map GameEvent.uid)
      = .ok ["abc", "1", "2", "10"] ∧
    (iter_events c1_values).map (fun evs => (sortEvents evs).map GameEvent.uid)
      ≠ .ok ["1", "2", "10", "abc"] := by
  have h : (iter_events c1_values).map (fun evs => (sortEvents evs).map GameEvent.uid)
      = .ok ["abc", "1", "2", "10"] := rfl
  refine ⟨h, ?_⟩
  rw [h]
  intro hc
  have := Except.ok.inj hc
  exact absurd this (by decide)

/-- Witness for C6: the two spellings of the attendance column resolve to
the same column in a concrete header, and the surviving character of the
normalized key is a lowercase alphanumeric. -/
theorem c6_witness :
    dictFind? (build_header_map ["Going?", "team"]) (normalize_header "Going?")
      = dictFind? (build_header_map ["Going?", "team"]) (normalize_header "GOING") ∧
    (('a' ≤ 'g' && 'g' ≤ 'z') || ('0' ≤ 'g' && 'g' ≤ '9')) = true :=
  ⟨(c6_header_normalization.2.2.2.1 ["Going?", "team"]).1,
   c6_header_normalization.2.2.2.2 "Going?" 'g' (by decide)⟩
